import Mathlib

/-!
Shallow embedding of the `saudi_id` Rust crate (`src/lib.rs`): a value type
for Saudi national identification numbers, validated by a Luhn checksum,
a length-10 rule, and (per the documentation) a category-coded leading digit.

Digit sequences are `List Nat` (Rust `Vec<u8>` elements, most-significant
first).  Machine arithmetic that can overflow (the `u32` accumulation in the
`Display` impl) is modelled with explicit `% 2 ^ 32`; Rust panics
(`unwrap`, `unreachable!`) are modelled with `Option`.
-/

deriving instance DecidableEq for Except

namespace SaudiId

/-- The `u32` modulus: arithmetic in the `Display` impl wraps at this bound
(in a release build; a debug build panics instead — either way the claim
that the accumulation stays below it is what matters). -/
def U32_MOD : Nat := 2 ^ 32

/-- `IdType` enum from `src/lib.rs`: holder category. -/
inductive IdType
  | Citizen
  | Resident
deriving DecidableEq, Repr

/-- `IdType::prefix`: the discriminant value of the variant (Citizen = 1,
Resident = 2). -/
def IdType.prefixDigit : IdType → Nat
  | .Citizen => 1
  | .Resident => 2

/-- `ID_SIZE` constant from `src/lib.rs`. -/
def ID_SIZE : Nat := 10

/-- `CITIZEN_PREFIX` constant from `src/lib.rs`. -/
def citizenPrefixDigit : Nat := IdType.Citizen.prefixDigit

/-- `RESIDENT_PREFIX` constant from `src/lib.rs`. -/
def residentPrefixDigit : Nat := IdType.Resident.prefixDigit

/-- `Id` struct from `src/lib.rs`: an ordered digit sequence. -/
structure Id where
  digits : List Nat
deriving DecidableEq, Repr

/-- `ParseError` enum from `src/lib.rs`. -/
inductive ParseError
  | InvalidId
deriving DecidableEq, Repr

/-- One step of the Luhn scan: a digit in a doubled position is doubled and
reduced by 9 when the result exceeds 9. -/
def luhnDouble (d : Nat) : Nat :=
  if 2 * d > 9 then 2 * d - 9 else 2 * d

/-- Tail of the Luhn sum: digits are given least-significant first, `i`
counts positions from the right (0-based); odd positions are doubled. -/
def luhnSumAux : Nat → Nat → List Nat → Nat
  | acc, _, [] => acc
  | acc, i, d :: rest =>
      luhnSumAux (acc + if i % 2 = 1 then luhnDouble d else d) (i + 1) rest

/-- Modelled from the spec: the external checksum primitive's Luhn sum over a
most-significant-first digit sequence (the `luhnr` crate is an external
collaborator, not part of this repository's sources).  Standard Luhn:
starting from the rightmost digit, every second digit is doubled (reduced by
9 when above 9) and all are summed.  The doubling convention is pinned by the
repository's test, which asserts that `1581872353` is a valid identifier. -/
def luhnSum (ds : List Nat) : Nat :=
  luhnSumAux 0 0 ds.reverse

/-- Modelled from the spec: `luhnr::validate` — a digit sequence satisfies
the Luhn relation iff its Luhn sum is divisible by 10.  Pure predicate,
defined on sequences of any length. -/
def luhnValidate (ds : List Nat) : Bool :=
  luhnSum ds % 10 == 0

/-- `Id::validate` from `src/lib.rs`:
`luhnr::validate(digits) && digits.len() == ID_SIZE`. -/
def Id.validate (ds : List Nat) : Bool :=
  luhnValidate ds && ds.length == ID_SIZE

/-- `TryFrom<Vec<u8>> for Id`: validate, then construct or reject. -/
def Id.tryFromVec (ds : List Nat) : Except ParseError Id :=
  if Id.validate ds then .ok ⟨ds⟩ else .error .InvalidId

/-- Fuel-indexed body of the digit-decomposition loop (the fuel only bounds
the iteration count so the recursion is structural; `n` iterations always
suffice since the argument shrinks by a factor of 10 each step). -/
def digitsLoop : Nat → Nat → List Nat
  | 0, _ => []
  | fuel + 1, n => if n = 0 then [] else digitsLoop fuel (n / 10) ++ [n % 10]

/-- The digit-decomposition loop of `TryFrom<u32> for Id`:
`while id > 0 { digits.insert(0, (id % 10) as u8); id /= 10; }` — the
least-significant digit is repeatedly moved to the front of the list, so the
result is most-significant first and `0` yields the empty sequence. -/
def u32Digits (n : Nat) : List Nat :=
  digitsLoop n n

/-- `TryFrom<u32> for Id`: decompose into decimal digits, validate,
construct or reject. -/
def Id.tryFromU32 (n : Nat) : Except ParseError Id :=
  if Id.validate (u32Digits n) then .ok ⟨u32Digits n⟩ else .error .InvalidId

/-- Numeric value of a decimal-digit character, `none` otherwise (Rust's
`char::to_digit(10)` accepts exactly the ASCII digits). -/
def charDigit (c : Char) : Option Nat :=
  if 48 ≤ c.toNat ∧ c.toNat ≤ 57 then some (c.toNat - 48) else none

/-- `str::parse::<u32>()`: an optional leading `+` sign followed by at least
one ASCII decimal digit, no other characters, value below `2 ^ 32`
(Rust's unsigned `FromStr` accepts an optional `+` and fails on overflow). -/
def parseU32 (s : String) : Option Nat :=
  let body := match s.data with
    | '+' :: rest => rest
    | cs => cs
  if body = [] then none
  else if body.all (fun c => (charDigit c).isSome) then
    let v := body.foldl (fun acc c => acc * 10 + ((charDigit c).getD 0)) 0
    if v < U32_MOD then some v else none
  else none

/-- `FromStr for Id`:
`s.parse::<u32>().map_or(Err(InvalidId), |num| Self::try_from(num).map_or(Err(InvalidId), Ok))`. -/
def Id.fromStr (s : String) : Except ParseError Id :=
  match parseU32 s with
  | none => .error .InvalidId
  | some n =>
      match Id.tryFromU32 n with
      | .error _ => .error .InvalidId
      | .ok id => .ok id

/-- The `fold` of the `Display` impl with `u32` wrapping made explicit:
`acc + digit * 10.pow(ITER_INDEXES - i)` over the enumerated digits, every
operation reduced `% 2 ^ 32`.  `i` is the enumeration index. -/
def displayFold : Nat → Nat → List Nat → Nat
  | acc, _, [] => acc
  | acc, i, d :: rest =>
      displayFold ((acc + d * 10 ^ (9 - i) % U32_MOD) % U32_MOD) (i + 1) rest

/-- The same fold without wrapping: the mathematically intended accumulation,
used to state when the `u32` computation overflows. -/
def displayFoldExact : Nat → Nat → List Nat → Nat
  | acc, _, [] => acc
  | acc, i, d :: rest => displayFoldExact (acc + d * 10 ^ (9 - i)) (i + 1) rest

/-- The `u32` value computed by the `Display` impl's fold. -/
def Id.displayValue (id : Id) : Nat :=
  displayFold 0 0 id.digits

/-- The unwrapped (no-overflow) value the `Display` fold is meant to
compute: `Σ digit_i * 10 ^ (9 - i)`. -/
def Id.displaySumExact (id : Id) : Nat :=
  displayFoldExact 0 0 id.digits

/-- ASCII character of a decimal digit. -/
def digitChar (d : Nat) : Char :=
  Char.ofNat (48 + d)

/-- Decimal digit characters of `n`, most-significant first (empty for 0);
the fuel argument mirrors `digitsLoop`. -/
def charsLoop : Nat → Nat → List Char
  | 0, _ => []
  | fuel + 1, n => if n = 0 then [] else charsLoop fuel (n / 10) ++ [digitChar (n % 10)]

/-- Decimal digit characters of `n`, most-significant first (empty for 0). -/
def natToChars (n : Nat) : List Char :=
  charsLoop n n

/-- Decimal rendering of a `u32` value, as Rust's `write!("{}", v)`
produces it: plain base-10 digits, no sign, no padding. -/
def natToText (n : Nat) : String :=
  if n = 0 then String.mk [digitChar 0] else String.mk (natToChars n)

/-- `Display for Id` / `to_string()`: format the wrapped `u32` accumulation
in decimal. -/
def Id.toText (id : Id) : String :=
  natToText (Id.displayValue id)

/-- Concatenation of a digit sequence's characters in order — the text the
spec says `to_string()` must produce. -/
def digitsText (ds : List Nat) : String :=
  String.mk (ds.map digitChar)

/-- `Id::get_type` from `src/lib.rs`, with both panic paths explicit:
`none` models the `unwrap` on an empty sequence and the `unreachable!` on a
leading digit other than the two prefixes. -/
def Id.getType (id : Id) : Option IdType :=
  match id.digits.head? with
  | none => none
  | some d =>
      if d = citizenPrefixDigit then some .Citizen
      else if d = residentPrefixDigit then some .Resident
      else none

/-- `Id::new`, parameterised by the external generator
`luhnr::generate_with_prefix(length, prefix) -> Result<Vec<u8>, _>`
(modelled as an `Option`-returning oracle, since its randomness is outside
the embedding).  `none` from the generator would make the `unwrap` panic,
modelled as `none` overall. -/
def Id.new (t : IdType) (gen : Nat → List Nat → Option (List Nat)) : Option Id :=
  match t with
  | .Citizen => (gen ID_SIZE [citizenPrefixDigit]).map (fun ds => ⟨ds⟩)
  | .Resident => (gen ID_SIZE [residentPrefixDigit]).map (fun ds => ⟨ds⟩)

/-- `Clone for Id`: a copy of the digit sequence (Rust clones the backing
`Vec`, sharing no storage; at the value level the copy is equal). -/
def Id.clone (id : Id) : Id :=
  ⟨id.digits⟩

/-- The spec's validity invariants for an `Id`: exactly 10 digits, each in
0–9, Luhn-valid, and a leading digit equal to one of the two category
prefixes. -/
def SpecValid (id : Id) : Prop :=
  id.digits.length = 10 ∧ (∀ d ∈ id.digits, d ≤ 9) ∧
    luhnValidate id.digits = true ∧
    (id.digits.head? = some citizenPrefixDigit ∨
      id.digits.head? = some residentPrefixDigit)

instance (id : Id) : Decidable (SpecValid id) := by
  unfold SpecValid
  infer_instance

/-! ## Helper lemmas -/

/-- With enough fuel, the decomposition loop produces exactly the decimal
digits, most-significant first. -/
theorem digitsLoop_eq_digits (fuel n : Nat) (h : n ≤ fuel) :
    digitsLoop fuel n = (Nat.digits 10 n).reverse := by
  induction fuel generalizing n with
  | zero =>
    have : n = 0 := Nat.le_zero.mp h
    subst this
    simp [digitsLoop]
  | succ fuel ih =>
    by_cases h0 : n = 0
    · subst h0
      simp [digitsLoop]
    · have hdiv : n / 10 ≤ fuel := by
        have := Nat.div_lt_self (Nat.pos_of_ne_zero h0) (by norm_num : (1 : Nat) < 10)
        omega
      rw [digitsLoop, if_neg h0, ih (n / 10) hdiv,
        Nat.digits_def' (by norm_num : (1 : Nat) < 10) (Nat.pos_of_ne_zero h0)]
      simp

/-- The decomposition loop of `TryFrom<u32>` produces exactly the decimal
digits, most-significant first. -/
theorem u32Digits_eq_digits (n : Nat) : u32Digits n = (Nat.digits 10 n).reverse :=
  digitsLoop_eq_digits n n (Nat.le_refl n)

/-- Integers below `10 ^ 9` decompose into fewer than 10 digits. -/
theorem u32Digits_length_lt (n : Nat) (h : n < 10 ^ 9) : (u32Digits n).length < 10 := by
  rw [u32Digits_eq_digits, List.length_reverse]
  by_cases h0 : n = 0
  · subst h0
    simp
  · rw [Nat.digits_len 10 n (by norm_num) h0]
    have := Nat.log_lt_of_lt_pow h0 h
    omega

/-- The character loop is the digit loop followed by `digitChar`. -/
theorem charsLoop_eq_map (fuel n : Nat) :
    charsLoop fuel n = (digitsLoop fuel n).map digitChar := by
  induction fuel generalizing n with
  | zero => simp [charsLoop, digitsLoop]
  | succ fuel ih =>
    by_cases h0 : n = 0
    · subst h0
      simp [charsLoop, digitsLoop]
    · rw [charsLoop, digitsLoop, if_neg h0, if_neg h0, ih (n / 10)]
      simp

/-- The decimal renderer emits exactly the decimal digit characters,
most-significant first. -/
theorem natToChars_eq_digits (n : Nat) :
    natToChars n = ((Nat.digits 10 n).reverse).map digitChar := by
  rw [natToChars, charsLoop_eq_map, ← u32Digits_eq_digits]
  rfl

/-- The character of a digit in 0–9 is an ASCII decimal digit. -/
theorem digitChar_isDigit (d : Nat) (h : d ≤ 9) : (digitChar d).isDigit = true := by
  interval_cases d <;> decide

/-! ## Claim theorems -/

/-- A 10-digit, Luhn-valid sequence whose leading digit is 9. -/
def c1Seq : List Nat := [9, 0, 0, 0, 0, 0, 0, 0, 0, 1]

/-- C1: the claim says a 10-digit, checksum-valid sequence with a leading
digit other than 1 or 2 is rejected by `try_from(Vec<u8>)`.  The code
violates this: `Id::validate` checks only the checksum and the length, never
the leading digit, so `[9,0,0,0,0,0,0,0,0,1]` — Luhn-valid, length 10,
leading digit 9 — is accepted and an `Id` is constructed from it. -/
theorem c1_bad_prefix_accepted :
    c1Seq.length = 10 ∧ luhnValidate c1Seq = true ∧
      c1Seq.head? = some 9 ∧
      Id.tryFromVec c1Seq = .ok ⟨c1Seq⟩ := by
  decide

/-- A 10-digit, Luhn-valid sequence whose leading digit is 7. -/
def c2Seq : List Nat := [7, 0, 0, 0, 0, 0, 0, 0, 0, 5]

/-- C2: the claim says `get_type()` never reaches the `unreachable!` branch
on an `Id` obtained from a successful validated construction.  The code
violates this: `try_from(Vec<u8>)` accepts the Luhn-valid sequence
`[7,0,0,0,0,0,0,0,0,5]` (no prefix check in `Id::validate`), and
`get_type()` on the resulting `Id` reaches the `unreachable!` panic
(modelled as `none`). -/
theorem c2_get_type_panics_on_validated_id :
    Id.tryFromVec c2Seq = .ok ⟨c2Seq⟩ ∧ Id.getType ⟨c2Seq⟩ = none := by
  decide

/-- C3: the private `validate` returns true iff the checksum primitive
reports the sequence Luhn-valid and the length is exactly 10. -/
theorem c3_validate_iff (ds : List Nat) :
    Id.validate ds = true ↔ (luhnValidate ds = true ∧ ds.length = 10) := by
  simp [Id.validate, ID_SIZE]

/-- A 10-digit, Luhn-valid sequence whose positional value exceeds
`u32::MAX`. -/
def c5Seq : List Nat := [5, 0, 0, 0, 0, 0, 0, 0, 0, 9]

/-- C5: the claim says `from_str(id.to_string()) == Ok(id)` for every `Id`
produced by a successful constructor.  The code violates this:
`try_from(Vec<u8>)` accepts the Luhn-valid sequence `[5,0,0,0,0,0,0,0,0,9]`
(value 5000000009, no prefix check in `Id::validate`), the `Display` fold
overflows `u32` and renders the wrapped value 705032713, and re-parsing that
text fails the length invariant, yielding `Err(InvalidId)`. -/
theorem c5_round_trip_fails :
    Id.tryFromVec c5Seq = .ok ⟨c5Seq⟩ ∧
      Id.toText ⟨c5Seq⟩ = ("705032713") ∧
      Id.fromStr (Id.toText ⟨c5Seq⟩) = .error .InvalidId := by
  decide

/-- C9: value semantics — two `Id`s are equal iff their digit sequences are
equal element-wise and in order, and a clone equals (and carries the same
digit sequence as) the original.  Storage independence is Rust-level
(`Vec::clone` copies the buffer); at the value level the clone is a plain
copy. -/
theorem c9_value_semantics (a b : Id) :
    (a = b ↔ a.digits = b.digits) ∧ Id.clone a = a ∧ (Id.clone a).digits = a.digits := by
  refine ⟨⟨fun h => by rw [h], fun h => ?_⟩, rfl, rfl⟩
  cases a
  cases b
  cases h
  rfl

/-- A 10-digit, Luhn-valid sequence whose positional value exceeds
`u32::MAX`. -/
def c10Seq : List Nat := [6, 0, 0, 0, 0, 0, 0, 0, 0, 7]

/-- C10: the claim says the `Display` fold's `u32` accumulation never
overflows for an `Id` accepted by a validated constructor.  The code
violates this: `try_from(Vec<u8>)` accepts the Luhn-valid sequence
`[6,0,0,0,0,0,0,0,0,7]` (no prefix check in `Id::validate`), whose intended
accumulation 6000000007 is at least `2 ^ 32`, so the wrapped value computed
by the fold differs from it (a debug build panics at the overflowing
addition). -/
theorem c10_display_overflows :
    Id.tryFromVec c10Seq = .ok ⟨c10Seq⟩ ∧
      U32_MOD ≤ Id.displaySumExact ⟨c10Seq⟩ ∧
      Id.displayValue ⟨c10Seq⟩ ≠ Id.displaySumExact ⟨c10Seq⟩ := by
  decide

/-- C4: `try_from(u32)` decomposes the integer into its decimal digits,
most-significant first (zero giving the empty sequence), and every integer
below `10 ^ 9` produces fewer than 10 digits and is rejected with
`ParseError::InvalidId`. -/
theorem c4_below_billion_rejected (n : Nat) (h : n < 10 ^ 9) :
    u32Digits n = (Nat.digits 10 n).reverse ∧
      (u32Digits n).length < 10 ∧
      Id.tryFromU32 n = .error .InvalidId := by
  refine ⟨u32Digits_eq_digits n, u32Digits_length_lt n h, ?_⟩
  have hlen := u32Digits_length_lt n h
  have hv : Id.validate (u32Digits n) = false := by
    unfold Id.validate
    have hne : ((u32Digits n).length == ID_SIZE) = false := by
      unfold ID_SIZE
      simp
      omega
    simp [hne]
  simp [Id.tryFromU32, hv]

/-- Witness for C4 at the concrete input 123456789. -/
theorem c4_below_billion_rejected_witness :
    u32Digits 123456789 = (Nat.digits 10 123456789).reverse ∧
      (u32Digits 123456789).length < 10 ∧
      Id.tryFromU32 123456789 = .error .InvalidId :=
  c4_below_billion_rejected 123456789 (by norm_num)

/-- A `+`-signed rendering of the repository's known-valid identifier. -/
def c7SignedText : String := "+1581872353"

/-- C7 counterexample: the claim counts signed text among the inputs that
fail the integer parse and yield `Err(InvalidId)`, but Rust's
`str::parse::<u32>()` accepts an optional leading `+` sign, so
`from_str("+1581872353")` succeeds and returns the parsed `Id`. -/
theorem c7_plus_signed_text_accepted :
    Id.fromStr c7SignedText = .ok ⟨[1, 5, 8, 1, 8, 7, 2, 3, 5, 3]⟩ := by
  decide

/-- C7 (amended): `from_str` first parses the text as a `u32` (base 10,
optional leading `+`, no whitespace, no other sign, value below `2 ^ 32`);
when the parse fails it returns `Err(InvalidId)`, and when it succeeds it
returns exactly the result of the integer construction path
`try_from(u32)`. -/
theorem c7_from_str_delegates (s : String) :
    Id.fromStr s = (match parseU32 s with
      | none => Except.error ParseError.InvalidId
      | some n => Id.tryFromU32 n) := by
  unfold Id.fromStr
  cases parseU32 s with
  | none => rfl
  | some n =>
    cases ht : Id.tryFromU32 n with
    | error e =>
      cases e
      simp [ht]
    | ok id => simp [ht]

/-- C8: under the generator's contract (a returned sequence of exactly the
requested length, led by the requested prefix, checksum-valid), `new`
never hits its `unwrap` panic and yields an `Id` of exactly 10 digits whose
first digit is the category's prefix; `get_type()` on it returns the
requested category. -/
theorem c8_new_yields_requested_type (t : IdType)
    (gen : Nat → List Nat → Option (List Nat)) (ds : List Nat)
    (hgen : gen ID_SIZE [t.prefixDigit] = some ds)
    (hlen : ds.length = ID_SIZE)
    (hhead : ds.head? = some t.prefixDigit)
    (_hluhn : luhnValidate ds = true) :
    Id.new t gen = some ⟨ds⟩ ∧ (⟨ds⟩ : Id).digits.length = ID_SIZE ∧
      (⟨ds⟩ : Id).digits.head? = some t.prefixDigit ∧
      Id.getType ⟨ds⟩ = some t := by
  cases t with
  | Citizen =>
    refine ⟨?_, hlen, hhead, ?_⟩
    · simp only [Id.new, citizenPrefixDigit]
      rw [hgen]
      rfl
    · simp only [Id.getType, hhead, IdType.prefixDigit, citizenPrefixDigit,
        residentPrefixDigit]
      rfl
  | Resident =>
    refine ⟨?_, hlen, hhead, ?_⟩
    · simp only [Id.new, residentPrefixDigit]
      rw [hgen]
      rfl
    · simp only [Id.getType, hhead, IdType.prefixDigit, citizenPrefixDigit,
        residentPrefixDigit]
      rfl

/-- A deterministic stand-in for the random generator, returning the
repository's known-valid Citizen identifier. -/
def c8Gen : Nat → List Nat → Option (List Nat) :=
  fun _ _ => some [1, 5, 8, 1, 8, 7, 2, 3, 5, 3]

/-- Witness for C8 at a concrete generator output. -/
theorem c8_new_yields_requested_type_witness :
    Id.new .Citizen c8Gen = some ⟨[1, 5, 8, 1, 8, 7, 2, 3, 5, 3]⟩ ∧
      (⟨[1, 5, 8, 1, 8, 7, 2, 3, 5, 3]⟩ : Id).digits.length = ID_SIZE ∧
      (⟨[1, 5, 8, 1, 8, 7, 2, 3, 5, 3]⟩ : Id).digits.head? =
        some IdType.Citizen.prefixDigit ∧
      Id.getType ⟨[1, 5, 8, 1, 8, 7, 2, 3, 5, 3]⟩ = some .Citizen :=
  c8_new_yields_requested_type .Citizen c8Gen [1, 5, 8, 1, 8, 7, 2, 3, 5, 3]
    rfl (by decide) (by decide) (by decide)

/-- For 10 digits led by a category prefix (at most 2) the wrapping `u32`
fold never reaches the modulus, so it computes the exact positional value. -/
theorem displayFold_ten (d0 d1 d2 d3 d4 d5 d6 d7 d8 d9 : Nat)
    (h0 : d0 ≤ 2) (h1 : d1 ≤ 9) (h2 : d2 ≤ 9) (h3 : d3 ≤ 9) (h4 : d4 ≤ 9)
    (h5 : d5 ≤ 9) (h6 : d6 ≤ 9) (h7 : d7 ≤ 9) (h8 : d8 ≤ 9) (h9 : d9 ≤ 9) :
    displayFold 0 0 [d0, d1, d2, d3, d4, d5, d6, d7, d8, d9] =
      d0 * 10 ^ 9 + d1 * 10 ^ 8 + d2 * 10 ^ 7 + d3 * 10 ^ 6 + d4 * 10 ^ 5 +
        d5 * 10 ^ 4 + d6 * 10 ^ 3 + d7 * 10 ^ 2 + d8 * 10 + d9 := by
  simp only [displayFold, U32_MOD]
  norm_num
  omega

/-- C6: for every `Id` satisfying the spec's validity invariants,
`to_string()` produces exactly 10 characters, all ASCII decimal digits,
equal to the concatenation of the digit sequence in order. -/
theorem c6_formatting_exact (id : Id) (h : SpecValid id) :
    (Id.toText id).length = 10 ∧
      ((Id.toText id).data.all Char.isDigit) = true ∧
      Id.toText id = digitsText id.digits := by
  obtain ⟨hlen, hrange, hluhn, hhead⟩ := h
  obtain ⟨ds⟩ := id
  simp only at hlen hrange hhead ⊢
  rcases ds with _ | ⟨d0, ds⟩; · simp at hlen
  rcases ds with _ | ⟨d1, ds⟩; · simp at hlen
  rcases ds with _ | ⟨d2, ds⟩; · simp at hlen
  rcases ds with _ | ⟨d3, ds⟩; · simp at hlen
  rcases ds with _ | ⟨d4, ds⟩; · simp at hlen
  rcases ds with _ | ⟨d5, ds⟩; · simp at hlen
  rcases ds with _ | ⟨d6, ds⟩; · simp at hlen
  rcases ds with _ | ⟨d7, ds⟩; · simp at hlen
  rcases ds with _ | ⟨d8, ds⟩; · simp at hlen
  rcases ds with _ | ⟨d9, ds⟩; · simp at hlen
  simp only [List.length_cons] at hlen
  have hnil : ds = [] := by
    have hz : ds.length = 0 := by omega
    exact List.length_eq_zero.mp hz
  subst hnil
  simp only [List.head?, citizenPrefixDigit, residentPrefixDigit,
    IdType.prefixDigit, Option.some.injEq] at hhead
  have h0 : d0 ≤ 2 := by omega
  have h1 : d1 ≤ 9 := hrange d1 (by simp)
  have h2 : d2 ≤ 9 := hrange d2 (by simp)
  have h3 : d3 ≤ 9 := hrange d3 (by simp)
  have h4 : d4 ≤ 9 := hrange d4 (by simp)
  have h5 : d5 ≤ 9 := hrange d5 (by simp)
  have h6 : d6 ≤ 9 := hrange d6 (by simp)
  have h7 : d7 ≤ 9 := hrange d7 (by simp)
  have h8 : d8 ≤ 9 := hrange d8 (by simp)
  have h9 : d9 ≤ 9 := hrange d9 (by simp)
  have hfold : Id.displayValue ⟨[d0, d1, d2, d3, d4, d5, d6, d7, d8, d9]⟩ =
      d0 * 10 ^ 9 + d1 * 10 ^ 8 + d2 * 10 ^ 7 + d3 * 10 ^ 6 + d4 * 10 ^ 5 +
        d5 * 10 ^ 4 + d6 * 10 ^ 3 + d7 * 10 ^ 2 + d8 * 10 + d9 :=
    displayFold_ten d0 d1 d2 d3 d4 d5 d6 d7 d8 d9 h0 h1 h2 h3 h4 h5 h6 h7 h8 h9
  have hofd : d0 * 10 ^ 9 + d1 * 10 ^ 8 + d2 * 10 ^ 7 + d3 * 10 ^ 6 + d4 * 10 ^ 5 +
      d5 * 10 ^ 4 + d6 * 10 ^ 3 + d7 * 10 ^ 2 + d8 * 10 + d9 =
      Nat.ofDigits 10 [d9, d8, d7, d6, d5, d4, d3, d2, d1, d0] := by
    simp [Nat.ofDigits]
    ring
  have hdigs : Nat.digits 10 (d0 * 10 ^ 9 + d1 * 10 ^ 8 + d2 * 10 ^ 7 + d3 * 10 ^ 6 +
      d4 * 10 ^ 5 + d5 * 10 ^ 4 + d6 * 10 ^ 3 + d7 * 10 ^ 2 + d8 * 10 + d9) =
      [d9, d8, d7, d6, d5, d4, d3, d2, d1, d0] := by
    rw [hofd]
    refine Nat.digits_ofDigits 10 (by norm_num) _ ?_ ?_
    · intro l hl
      simp at hl
      rcases hl with rfl | rfl | rfl | rfl | rfl | rfl | rfl | rfl | rfl | rfl <;> omega
    · intro hne
      have hg : List.getLast [d9, d8, d7, d6, d5, d4, d3, d2, d1, d0] hne = d0 := rfl
      rw [hg]
      omega
  have hS0 : d0 * 10 ^ 9 + d1 * 10 ^ 8 + d2 * 10 ^ 7 + d3 * 10 ^ 6 + d4 * 10 ^ 5 +
      d5 * 10 ^ 4 + d6 * 10 ^ 3 + d7 * 10 ^ 2 + d8 * 10 + d9 ≠ 0 := by
    omega
  have hmain : Id.toText ⟨[d0, d1, d2, d3, d4, d5, d6, d7, d8, d9]⟩ =
      digitsText [d0, d1, d2, d3, d4, d5, d6, d7, d8, d9] := by
    rw [Id.toText, hfold, natToText, if_neg hS0, natToChars_eq_digits, hdigs]
    simp [digitsText]
  refine ⟨?_, ?_, hmain⟩
  · rw [hmain]
    simp [digitsText, String.length]
  · rw [hmain]
    simp only [digitsText]
    simp only [List.all_eq_true]
    intro c hc
    simp only [List.mem_map] at hc
    obtain ⟨d, hd, rfl⟩ := hc
    refine digitChar_isDigit d ?_
    simp at hd
    rcases hd with rfl | rfl | rfl | rfl | rfl | rfl | rfl | rfl | rfl | rfl <;> omega


/-- Witness for C6 at the repository's known-valid identifier. -/
theorem c6_formatting_exact_witness :
    (Id.toText ⟨[1, 5, 8, 1, 8, 7, 2, 3, 5, 3]⟩).length = 10 ∧
      ((Id.toText ⟨[1, 5, 8, 1, 8, 7, 2, 3, 5, 3]⟩).data.all Char.isDigit) = true ∧
      Id.toText ⟨[1, 5, 8, 1, 8, 7, 2, 3, 5, 3]⟩ =
        digitsText [1, 5, 8, 1, 8, 7, 2, 3, 5, 3] :=
  c6_formatting_exact ⟨[1, 5, 8, 1, 8, 7, 2, 3, 5, 3]⟩ (by decide)

end SaudiId
